import Mathlib

/-!
# Verification of the UnRayNeo WiFi-state parser and logged command runner

Shallow embedding of the parsing section of `list_wifi_networks` and
`get_current_wifi_connection` (src/unrayneo/wifi.py) and of `log_command` /
`stream_output` (src/unrayneo/command_logger.py).

Text is modelled as `List Char`.  Python's `re` patterns used by the source
are each embedded as a dedicated scanning function whose doc comment names
the pattern it embeds; `re.search` position scanning is embedded by
`searchFrom`, which tries the match attempt at every start position from the
left.  Python's whitespace class is modelled by its ASCII members (the
source input is ASCII command output).
-/

/-- Python `\s` / `str.strip()` whitespace, ASCII members:
space, tab, newline, carriage return, vertical tab, form feed. -/
def isWsChar (c : Char) : Bool :=
  c == ' ' || c == '\t' || c == '\n' || c == '\r' || c == '\x0b' || c == '\x0c'

/-- Python `str.strip()`: drop leading and trailing whitespace. -/
def stripChars (s : List Char) : List Char :=
  ((s.dropWhile isWsChar).reverse.dropWhile isWsChar).reverse

/-- Python `str.split('\n')`: split on each newline; `"".split('\n') = [""]`. -/
def splitOnNl : List Char → List (List Char)
  | [] => [[]]
  | c :: cs =>
    if c == '\n' then [] :: splitOnNl cs
    else
      match splitOnNl cs with
      | [] => [[c]]
      | l :: ls => (c :: l) :: ls

/-- Does `s` start with `pat`?  (Helper for substring containment / find.) -/
def startsWith : List Char → List Char → Bool
  | _, [] => true
  | [], _ :: _ => false
  | a :: s, b :: p => a == b && startsWith s p

/-- Python `pat in s` substring containment. -/
def hasSubstr : List Char → List Char → Bool
  | s, pat =>
    if startsWith s pat then true
    else
      match s with
      | [] => false
      | _ :: t => hasSubstr t pat

/-- Python `s.find(pat)`: index of the first occurrence of `pat` in `s`
(`none` where Python returns `-1`). -/
def findSub : List Char → List Char → Option Nat
  | s, pat =>
    if startsWith s pat then some 0
    else
      match s with
      | [] => none
      | _ :: t => (findSub t pat).map (· + 1)

/-- Python `s.find(c, start)`: index of the first occurrence of character `c`
at position `start` or later (`none` where Python returns `-1`). -/
def findCharFrom (s : List Char) (c : Char) (start : Nat) : Option Nat :=
  match (s.drop start).findIdx? (· == c) with
  | some j => some (start + j)
  | none => none

/-- `re.search` position scan: try the match attempt `f` at every start
position of the text, leftmost first (including the empty suffix). -/
def searchFrom (f : List Char → Option (List Char)) : List Char → Option (List Char)
  | [] => f []
  | s@(_ :: rest) =>
    match f s with
    | some r => some r
    | none => searchFrom f rest

/-- The sentinel `"Unknown"` used by the source for unmatched fields. -/
def unknownText : List Char := "Unknown".data

/-- Character class `[0-9a-f:]` of the BSSID pattern. -/
def isBssidChar (c : Char) : Bool :=
  c.isDigit || ('a' ≤ c && c ≤ 'f') || c == ':'

/-- Embeds `re.search(r'^\s*([0-9a-f:]+)', line)` (wifi.py line 124),
returning group 1.  `^` anchors at the string start; since the whitespace
class and `[0-9a-f:]` are disjoint no backtracking applies: the group is the
maximal `[0-9a-f:]` run after the leading whitespace, nonempty or no match. -/
def bssidMatch (line : List Char) : Option (List Char) :=
  let rest := line.dropWhile isWsChar
  let hex := rest.takeWhile isBssidChar
  if hex.isEmpty then none else some hex

/-- Match attempt of `\s+(\d+)\s+` anchored at the start of `s`:
one-or-more whitespace, then the maximal nonempty digit run, then at least
one more whitespace character.  (The classes are disjoint, so the greedy
quantifiers admit no successful backtracking.) -/
def freqTryAt (s : List Char) : Option (List Char) :=
  match s with
  | c :: rest =>
    if isWsChar c then
      let t := rest.dropWhile isWsChar
      let ds := t.takeWhile Char.isDigit
      match t.dropWhile Char.isDigit with
      | d :: _ => if ds.isEmpty then none else if isWsChar d then some ds else none
      | [] => none
    else none
  | [] => none

/-- Embeds `re.search(r'\s+(\d+)\s+', line)` (wifi.py line 125), group 1. -/
def freqMatch (line : List Char) : Option (List Char) :=
  searchFrom freqTryAt line

/-- Match attempt of `-\d+\(` anchored at the start of `s`, returning the
whole match (group 0): `-`, the maximal nonempty digit run, then `(`. -/
def rssiTryAt (s : List Char) : Option (List Char) :=
  match s with
  | c :: rest =>
    if c = '-' then
      let ds := rest.takeWhile Char.isDigit
      if ds.isEmpty then none
      else
        match rest.dropWhile Char.isDigit with
        | d :: _ => if d = '(' then some ('-' :: (ds ++ ['('])) else none
        | [] => none
    else none
  | [] => none

/-- Embeds `re.search(r'-\d+\(', line)` (wifi.py line 126), group 0. -/
def rssiMatch (line : List Char) : Option (List Char) :=
  searchFrom rssiTryAt line

/-- Lazy scan for the `.*?\s+\[` tail of the SSID pattern.  `acc` holds the
group so far, reversed; `s` is the remaining text.  At each position, first
try to finish: the position starts a whitespace run whose next character is
`[` (the backtracking-free reading of greedy `\s+` followed by `\[`).
Otherwise the lazy `.*?` absorbs the character — unless it is a newline,
which `.` cannot match, ending the attempt. -/
def ssidScan : List Char → List Char → Option (List Char)
  | acc, s =>
    match s with
    | [] => none
    | c :: rest =>
      if isWsChar c && ((c :: rest).dropWhile isWsChar).head? == some '[' then
        some acc.reverse
      else if c == '\n' then none
      else ssidScan (c :: acc) rest

/-- Match attempt of `\s+([^\s].*?)\s+\[` anchored at the start of `s`:
one-or-more whitespace (greedily maximal — shorter runs would put `[^\s]` on
a whitespace character), one non-whitespace character, then the lazy scan. -/
def ssidTryAt (s : List Char) : Option (List Char) :=
  match s with
  | c :: rest =>
    if isWsChar c then
      match rest.dropWhile isWsChar with
      | d :: t => ssidScan [d] t
      | [] => none
    else none
  | [] => none

/-- Embeds `re.search(r'\s+([^\s].*?)\s+\[', line)` (wifi.py line 127),
group 1. -/
def ssidMatch (line : List Char) : Option (List Char) :=
  searchFrom ssidTryAt line

/-- Match attempt of `\[(.*)\]$` anchored at the start of `s`, where `s`
runs to the end of the line and the line contains no newline (lines come
from a split on newlines, so `$` is end-of-string and `.` is unrestricted):
`[`, then everything up to a final `]`. -/
def flagsTryAt (s : List Char) : Option (List Char) :=
  match s with
  | c :: rest =>
    if c = '[' then
      match rest.getLast? with
      | some x => if x = ']' then some rest.dropLast else none
      | none => none
    else none
  | [] => none

/-- Embeds `re.search(r'\[(.*)\]$', line)` (wifi.py line 128), group 1. -/
def flagsMatch (line : List Char) : Option (List Char) :=
  searchFrom flagsTryAt line

/-- A parsed WiFi network record (the dict built at wifi.py lines 144-150). -/
structure Network where
  bssid : List Char
  frequency : List Char
  rssi : List Char
  ssid : List Char
  flags : List Char
deriving DecidableEq, Repr

/-- The RSSI extraction of wifi.py lines 131-137: if the RSSI pattern
matched, find the match text in the line, then the next `)`; the field is
the slice from the match start through that `)` inclusive.  Python's
`find` returning `-1` (and the guard `rssi_end > rssi_start` then failing,
since `rssi_start ≥ 0`) is the `none => unknownText` branch. -/
def rssiField (line : List Char) : List Char :=
  match rssiMatch line with
  | none => unknownText
  | some g0 =>
    match findSub line g0 with
    | none => unknownText
    | some rssiStart =>
      match findCharFrom line ')' rssiStart with
      | none => unknownText
      | some rssiEnd =>
        if rssiStart < rssiEnd then (line.drop rssiStart).take (rssiEnd + 1 - rssiStart)
        else unknownText

/-- The record built for a line whose BSSID pattern matched with group `b`
(wifi.py lines 131-150); each remaining field independently falls back. -/
def mkNetwork (line : List Char) (b : List Char) : Network where
  bssid := stripChars b
  frequency := (freqMatch line).map stripChars |>.getD unknownText
  rssi := rssiField line
  ssid := (ssidMatch line).map stripChars |>.getD []
  flags := (flagsMatch line).map stripChars |>.getD unknownText

/-- The loop body of wifi.py lines 120-151 for one candidate line: skip
blank lines; produce a record exactly when the BSSID pattern matches. -/
def parseOneLine (line : List Char) : Option Network :=
  if (stripChars line).isEmpty then none
  else
    match bssidMatch line with
    | some b => some (mkNetwork line b)
    | none => none

/-- The `for line in lines[start_idx:]` loop of wifi.py lines 119-151. -/
def scanLoop : List (List Char) → List Network
  | [] => []
  | line :: rest =>
    match parseOneLine line with
    | some n => n :: scanLoop rest
    | none => scanLoop rest

/-- Header detection of wifi.py lines 112-116: `"BSSID" in line and
"SSID" in line`. -/
def isHeader (line : List Char) : Bool :=
  hasSubstr line "BSSID".data && hasSubstr line "SSID".data

/-- `start_idx`: one past the first header line, else 0. -/
def startIdx (lines : List (List Char)) : Nat :=
  match lines.findIdx? isHeader with
  | some i => i + 1
  | none => 0

/-- The candidate record lines: `result.stdout.strip().split('\n')` then
`lines[start_idx:]` (wifi.py lines 109-119). -/
def candidateLines (raw : List Char) : List (List Char) :=
  let lines := splitOnNl (stripChars raw)
  lines.drop (startIdx lines)

/-- The parsing section of `list_wifi_networks` (wifi.py lines 107-153),
taking the command's stdout text; the subprocess invocation around it is
outside the model. -/
def list_wifi_networks (raw : List Char) : List Network :=
  scanLoop (candidateLines raw)

/-- The current-connection record (the dict built at wifi.py lines 243-247). -/
structure Connection where
  ssid : List Char
  bssid : List Char
  ip : List Char
deriving DecidableEq, Repr

/-- Embeds `re.search(key ++ r'(.*?)($|\n)', text)`, group 1, for a literal
`key` (wifi.py lines 238-240): the leftmost occurrence of `key` — the
pattern is NOT line-anchored — followed by the lazy run up to the first
newline or the end of the text.  (The trailing `(.*?)($|\n)` always matches,
so the search succeeds exactly where `key` occurs; `$` also matching before
a trailing newline stops the group at the same place `\n` does.) -/
def kvSearch (text : List Char) (key : List Char) : Option (List Char) :=
  match findSub text key with
  | none => none
  | some i => some ((text.drop (i + key.length)).takeWhile (· != '\n'))

/-- The parsing section of `get_current_wifi_connection` (wifi.py lines
230-250), taking the command's stdout text: strip; return `none` on the
"Wifi is disabled" / "Not connected" phrases; otherwise extract the three
key-value fields, requiring SSID and defaulting BSSID and IP to "Unknown". -/
def get_current_wifi_connection (raw : List Char) : Option Connection :=
  let output := stripChars raw
  if hasSubstr output "Wifi is disabled".data || hasSubstr output "Not connected".data then
    none
  else
    match kvSearch output "SSID: ".data with
    | none => none
    | some s =>
      some
        { ssid := stripChars s
          bssid := (kvSearch output "BSSID: ".data).map stripChars |>.getD unknownText
          ip := (kvSearch output "IP: ".data).map stripChars |>.getD unknownText }

/-! ## Logged command runner (command_logger.py)

`log_command` spawns a shell child and drains its two output pipes on two
reader threads, each owning one log file exclusively, then waits and joins.
The model abstracts the child process as the lines each of its streams
yields and its exit code; each reader thread is the sequential fold its
loop body performs on its own stream (the threads share no state, so their
interleaving is unobservable in the artifacts).  The log-directory naming
(date, md5 hash, timestamp) and the console device are environment effects
outside the model; a file's content is the concatenation of the chunks
written to it. -/

/-- The observable behaviour of the spawned child process: the lines each
output pipe yields (as Python line iteration produces them, trailing
newlines included) and the exit code `process.wait()` returns. -/
structure ChildBehavior where
  stdoutLines : List (List Char)
  stderrLines : List (List Char)
  exitCode : Int
deriving DecidableEq, Repr

/-- The artifact files `log_command` writes in its log directory. -/
structure LogDir where
  commandTxt : List Char
  stdoutTxt : List Char
  stderrTxt : List Char
  returncodeTxt : List Char
deriving DecidableEq, Repr

/-- Python `str()` of an int (decimal, `-` sign for negatives), as written
to `returncode.txt`. -/
def intToDec (i : Int) : List Char :=
  if i < 0 then '-' :: Nat.toDigits 10 i.natAbs else Nat.toDigits 10 i.toNat

/-- `stream_output` (command_logger.py lines 42-46): the reader-thread loop
`for line in pipe: print(pfx + line); file.write(line); file.flush()`.
`file` accumulates the file content written so far and `console` the
console prints; returns the final (file content, console prints). -/
def stream_output (pipe : List (List Char)) (file : List Char) (pfx : List Char)
    (console : List (List Char)) : List Char × List (List Char) :=
  match pipe with
  | [] => (file, console)
  | line :: rest => stream_output rest (file ++ line) pfx (console ++ [pfx ++ line])

/-- `log_command` (command_logger.py lines 10-69): write `command.txt`,
spawn the child, drain stdout and stderr through `stream_output` (one
reader per stream, the stderr console lines prefixed `"ERR: "`), wait for
the exit code, join both readers, write the exit code to `returncode.txt`,
and return it.  The returned pair is (log directory artifacts, returned
exit code); both streams are fully drained in the artifacts at return. -/
def log_command (cmd : List Char) (child : ChildBehavior) : LogDir × Int :=
  let soFile := stream_output child.stdoutLines [] [] []
  let seFile := stream_output child.stderrLines [] "ERR: ".data []
  let returncode := child.exitCode
  ({ commandTxt := cmd
     stdoutTxt := soFile.1
     stderrTxt := seFile.1
     returncodeTxt := intToDec returncode }, returncode)

/-! ## Substring and strip lemmas -/

theorem startsWith_iff (s p : List Char) : startsWith s p = true ↔ ∃ r, s = p ++ r := by
  induction p generalizing s with
  | nil =>
    constructor
    · intro _; exact ⟨s, rfl⟩
    · intro _; cases s <;> rfl
  | cons b p ih =>
    cases s with
    | nil =>
      simp only [startsWith, List.cons_append]
      constructor
      · intro h; cases h
      · rintro ⟨r, hr⟩; cases hr
    | cons a s =>
      simp only [startsWith, Bool.and_eq_true, beq_iff_eq, ih, List.cons_append,
        List.cons.injEq]
      constructor
      · rintro ⟨rfl, r, rfl⟩
        exact ⟨r, rfl, rfl⟩
      · rintro ⟨r, rfl, rfl⟩
        exact ⟨rfl, r, rfl⟩

theorem hasSubstr_nil (p : List Char) : hasSubstr [] p = startsWith [] p := by
  rw [hasSubstr]
  cases h : startsWith ([] : List Char) p <;> simp [h]

theorem hasSubstr_cons (c : Char) (t p : List Char) :
    hasSubstr (c :: t) p = (startsWith (c :: t) p || hasSubstr t p) := by
  rw [hasSubstr]
  cases h : startsWith (c :: t) p <;> simp [h]

theorem hasSubstr_iff (s p : List Char) :
    hasSubstr s p = true ↔ ∃ a b, s = a ++ p ++ b := by
  induction s with
  | nil =>
    rw [hasSubstr_nil, startsWith_iff]
    constructor
    · rintro ⟨r, hr⟩
      exact ⟨[], r, by simp [hr]⟩
    · rintro ⟨a, b, hab⟩
      have ha : a = [] ∧ p ++ b = [] := by
        have := hab.symm
        rw [List.append_assoc] at this
        exact List.append_eq_nil.mp this
      have hp : p = [] ∧ b = [] := List.append_eq_nil.mp ha.2
      exact ⟨[], by simp [hp.1]⟩
  | cons c t ih =>
    rw [hasSubstr_cons]
    simp only [Bool.or_eq_true, startsWith_iff, ih]
    constructor
    · rintro (⟨r, hr⟩ | ⟨a, b, hab⟩)
      · exact ⟨[], r, by simp [hr]⟩
      · exact ⟨c :: a, b, by simp [hab]⟩
    · rintro ⟨a, b, hab⟩
      cases a with
      | nil =>
        left
        exact ⟨b, by simpa using hab⟩
      | cons x a =>
        right
        simp only [List.cons_append, List.append_assoc, List.cons.injEq] at hab
        exact ⟨a, b, by simp [hab.2]⟩

theorem findSub_isSome (s p : List Char) : (findSub s p).isSome = hasSubstr s p := by
  induction s with
  | nil =>
    rw [findSub, hasSubstr]
    cases h : startsWith ([] : List Char) p <;> simp [h]
  | cons c t ih =>
    rw [findSub, hasSubstr]
    cases h : startsWith (c :: t) p <;> simp [h, ih]

theorem kvSearch_eq_none (t k : List Char) :
    kvSearch t k = none ↔ hasSubstr t k = false := by
  unfold kvSearch
  cases h : findSub t k with
  | none =>
    have := findSub_isSome t k
    rw [h] at this
    simp [← this]
  | some i =>
    have := findSub_isSome t k
    rw [h] at this
    simp [← this]

theorem dropWhile_append_exists (a : List Char) (c : Char) (t : List Char)
    (hc : isWsChar c = false) :
    ∃ a2, (a ++ (c :: t)).dropWhile isWsChar = a2 ++ (c :: t) := by
  induction a with
  | nil => exact ⟨[], by simp [List.dropWhile_cons, hc]⟩
  | cons d a ih =>
    by_cases hd : isWsChar d = true
    · obtain ⟨a2, h2⟩ := ih
      exact ⟨a2, by simp [List.dropWhile_cons, hd, h2]⟩
    · exact ⟨d :: a, by simp [List.dropWhile_cons, hd]⟩

/-- `str.strip()` preserves every substring whose first and last characters
are not whitespace (such as the two status phrases the source tests for). -/
theorem hasSubstr_stripChars (s p : List Char)
    (hhead : ∃ c t, p = c :: t ∧ isWsChar c = false)
    (hlast : ∃ q c, p = q ++ [c] ∧ isWsChar c = false)
    (h : hasSubstr s p = true) : hasSubstr (stripChars s) p = true := by
  obtain ⟨a, b, hs⟩ := (hasSubstr_iff s p).1 h
  obtain ⟨c, t, hp1, hc⟩ := hhead
  obtain ⟨q, cl, hp2, hcl⟩ := hlast
  have h1 : ∃ a2, (s.dropWhile isWsChar) = a2 ++ (p ++ b) := by
    have := dropWhile_append_exists a c (t ++ b) hc
    rw [hs, List.append_assoc, hp1]
    simpa using this
  obtain ⟨a2, h1⟩ := h1
  have hrev : (s.dropWhile isWsChar).reverse
      = b.reverse ++ (cl :: (q.reverse ++ a2.reverse)) := by
    rw [h1, hp2]
    simp [List.reverse_append, List.append_assoc]
  have h2 := dropWhile_append_exists b.reverse cl (q.reverse ++ a2.reverse) hcl
  obtain ⟨b2, h2⟩ := h2
  apply (hasSubstr_iff _ _).2
  refine ⟨a2, b2.reverse, ?_⟩
  unfold stripChars
  rw [hrev, h2, hp2]
  simp [List.reverse_append, List.append_assoc]

/-! ## Claims about the current-connection parser -/

/-- C5: any input text containing the phrase "Wifi is disabled" or the
phrase "Not connected" parses to an absent connection. -/
theorem connection_phrase_absent (raw : List Char)
    (h : hasSubstr raw "Wifi is disabled".data = true
      ∨ hasSubstr raw "Not connected".data = true) :
    get_current_wifi_connection raw = none := by
  have hcond : (hasSubstr (stripChars raw) "Wifi is disabled".data
      || hasSubstr (stripChars raw) "Not connected".data) = true := by
    rcases h with h | h
    · have := hasSubstr_stripChars raw _ ⟨'W', "ifi is disabled".data, by decide, by decide⟩
        ⟨"Wifi is disable".data, 'd', by decide, by decide⟩ h
      simp [this]
    · have := hasSubstr_stripChars raw _ ⟨'N', "ot connected".data, by decide, by decide⟩
        ⟨"Not connecte".data, 'd', by decide, by decide⟩ h
      simp [this]
  unfold get_current_wifi_connection
  simp [hcond]

theorem connection_phrase_absent_witness :
    get_current_wifi_connection "Wifi is disabled\n".data = none :=
  connection_phrase_absent _ (Or.inl (by decide))

/-- C6: the two concrete current-connection parses: a full report yields all
three fields; an SSID-only report defaults BSSID and IP to "Unknown". -/
theorem connection_concrete_examples :
    get_current_wifi_connection
        "SSID: home\nBSSID: aa:bb:cc:dd:ee:ff\nIP: 192.168.1.5\n".data
      = some ⟨"home".data, "aa:bb:cc:dd:ee:ff".data, "192.168.1.5".data⟩
    ∧ get_current_wifi_connection "SSID: home\n".data
      = some ⟨"home".data, unknownText, unknownText⟩ :=
  ⟨by decide, by decide⟩

/-- C2 counterexample: the key-value patterns are NOT line-anchored — on a
report with a BSSID field but no SSID field, `SSID: ` matches inside
`BSSID: `, so the parser returns a present connection instead of the absent
result the claim requires. -/
theorem connection_bssid_only_counterexample :
    get_current_wifi_connection "BSSID: aa:bb:cc:dd:ee:ff\n".data
      = some ⟨"aa:bb:cc:dd:ee:ff".data, "aa:bb:cc:dd:ee:ff".data, unknownText⟩ := by
  decide

/-- C2 amended: with neither status phrase present, the result is absent
exactly when the stripped text contains no occurrence of the substring
`SSID: ` anywhere (unanchored matching; an occurrence inside `BSSID: `
counts). -/
theorem connection_none_iff_no_ssid_key (raw : List Char)
    (h1 : hasSubstr (stripChars raw) "Wifi is disabled".data = false)
    (h2 : hasSubstr (stripChars raw) "Not connected".data = false) :
    (get_current_wifi_connection raw = none
      ↔ hasSubstr (stripChars raw) "SSID: ".data = false) := by
  unfold get_current_wifi_connection
  cases hkv : kvSearch (stripChars raw) "SSID: ".data with
  | none =>
    have hss := (kvSearch_eq_none _ _).1 hkv
    simp [h1, h2, hkv, hss]
  | some v =>
    cases hb : hasSubstr (stripChars raw) "SSID: ".data with
    | false =>
      rw [(kvSearch_eq_none _ _).2 hb] at hkv
      cases hkv
    | true =>
      simp [h1, h2, hkv]

theorem connection_none_iff_no_ssid_key_witness :
    (get_current_wifi_connection "IP: 1.2.3.4".data = none
      ↔ hasSubstr (stripChars "IP: 1.2.3.4".data) "SSID: ".data = false) :=
  connection_none_iff_no_ssid_key _ (by decide) (by decide)

/-! ## Scan-parser lemmas -/

theorem isBssidChar_not_ws (c : Char) (h : isBssidChar c = true) : isWsChar c = false := by
  cases hw : isWsChar c with
  | false => rfl
  | true =>
    exfalso
    unfold isWsChar at hw
    simp only [Bool.or_eq_true, beq_iff_eq] at hw
    rcases hw with ((((rfl | rfl) | rfl) | rfl) | rfl) | rfl <;> exact absurd h (by decide)

theorem dropWhile_head_false (p : Char → Bool) (l : List Char) (d : Char) (t : List Char)
    (h : l.dropWhile p = d :: t) : p d = false := by
  induction l with
  | nil => cases h
  | cons c cs ih =>
    rw [List.dropWhile_cons] at h
    by_cases hc : p c = true
    · rw [if_pos hc] at h
      exact ih h
    · rw [if_neg hc] at h
      cases h
      exact Bool.not_eq_true _ |>.mp hc

theorem stripChars_ne_of_dropWhile (l : List Char) (d : Char) (t : List Char)
    (hr : l.dropWhile isWsChar = d :: t) (hd : isWsChar d = false) :
    (stripChars l).isEmpty = false := by
  unfold stripChars
  rw [hr]
  cases hX : (d :: t).reverse.dropWhile isWsChar with
  | nil =>
    exfalso
    have hall := List.dropWhile_eq_nil_iff.mp hX
    have hd2 := hall d (by simp)
    rw [hd] at hd2
    cases hd2
  | cons y ys => simp

theorem bssidMatch_some_nonblank (l b : List Char) (h : bssidMatch l = some b) :
    (stripChars l).isEmpty = false := by
  unfold bssidMatch at h
  by_cases he : ((l.dropWhile isWsChar).takeWhile isBssidChar).isEmpty = true
  · rw [if_pos he] at h
    cases h
  · cases hr : l.dropWhile isWsChar with
    | nil =>
      rw [hr] at he
      exact absurd rfl he
    | cons d t =>
      have hd : isBssidChar d = true := by
        by_contra hdc
        rw [hr] at he
        rw [List.takeWhile_cons, if_neg hdc] at he
        exact he rfl
      exact stripChars_ne_of_dropWhile l d t hr (isBssidChar_not_ws d hd)

theorem bssidMatch_of_blank (l : List Char) (h : (stripChars l).isEmpty = true) :
    bssidMatch l = none := by
  cases hm : bssidMatch l with
  | none => rfl
  | some b =>
    rw [bssidMatch_some_nonblank l b hm] at h
    cases h

/-- Inversion of the per-line loop body: a produced record comes from a
non-blank line whose BSSID pattern matched, and is `mkNetwork`. -/
theorem parseOneLine_inv (line : List Char) (n : Network)
    (h : parseOneLine line = some n) :
    ∃ b, bssidMatch line = some b ∧ n = mkNetwork line b
      ∧ (stripChars line).isEmpty = false := by
  unfold parseOneLine at h
  by_cases hb : (stripChars line).isEmpty = true
  · rw [if_pos hb] at h
    cases h
  · rw [if_neg hb] at h
    cases hm : bssidMatch line with
    | none =>
      rw [hm] at h
      cases h
    | some b =>
      rw [hm] at h
      cases h
      exact ⟨b, rfl, rfl, by simpa using hb⟩

theorem scanLoop_eq_filter_map (lines : List (List Char)) :
    scanLoop lines
      = ((lines.filter fun l => !(stripChars l).isEmpty && (bssidMatch l).isSome).map
          fun l => mkNetwork l ((bssidMatch l).getD [])) := by
  induction lines with
  | nil => rfl
  | cons l rest ih =>
    cases hp : parseOneLine l with
    | none =>
      have hpred : (!(stripChars l).isEmpty && (bssidMatch l).isSome) = false := by
        unfold parseOneLine at hp
        by_cases hb : (stripChars l).isEmpty = true
        · simp [hb]
        · rw [if_neg hb] at hp
          cases hm : bssidMatch l with
          | none => simp [hm]
          | some b => rw [hm] at hp; cases hp
      simp [scanLoop, hp, List.filter_cons, hpred, ih]
    | some n =>
      obtain ⟨b, hm, rfl, hb⟩ := parseOneLine_inv l n hp
      simp [scanLoop, hp, List.filter_cons, hb, hm, ih]

theorem mem_scanLoop (lines : List (List Char)) (l : List Char) (n : Network)
    (hl : l ∈ lines) (hp : parseOneLine l = some n) : n ∈ scanLoop lines := by
  induction lines with
  | nil => cases hl
  | cons x rest ih =>
    rcases List.mem_cons.mp hl with rfl | hmem
    · simp [scanLoop, hp]
    · cases hq : parseOneLine x with
      | none => simpa [scanLoop, hq] using ih hmem
      | some m =>
        simp only [scanLoop, hq, List.mem_cons]
        exact Or.inr (ih hmem)

theorem cons_getLast?_ne (a : Char) (l : List Char) (h : l ≠ []) :
    (a :: l).getLast? = l.getLast? := by
  cases l with
  | nil => exact absurd rfl h
  | cons y ys => exact List.getLast?_cons_cons

theorem cons_dropLast_ne (a : Char) (l : List Char) (h : l ≠ []) :
    (a :: l).dropLast = a :: l.dropLast := by
  cases l with
  | nil => exact absurd rfl h
  | cons y ys => exact List.dropLast_cons₂

/-- Characterization of the flags matcher: it succeeds exactly on lines
ending in `]` that contain an earlier `[`, capturing everything strictly
between the FIRST such `[` and the final `]` (greedy `.*`, leftmost match). -/
theorem flagsMatch_eq (line : List Char) :
    flagsMatch line
      = if (line.getLast? = some ']') ∧ ('[' ∈ line.dropLast)
        then some (((line.dropWhile (fun c => c != '[')).drop 1).dropLast)
        else none := by
  induction line with
  | nil => simp [flagsMatch, searchFrom, flagsTryAt]
  | cons c t ih =>
    have hstep : flagsMatch (c :: t)
        = (match flagsTryAt (c :: t) with
          | some r => some r
          | none => flagsMatch t) := rfl
    by_cases hc : c = '['
    · subst hc
      cases hlast : t.getLast? with
      | none =>
        have ht : t = [] := List.getLast?_eq_none_iff.mp hlast
        subst ht
        simp [hstep, flagsTryAt, flagsMatch, searchFrom]
      | some x =>
        have htne : t ≠ [] := by
          intro h
          rw [h] at hlast
          cases hlast
        by_cases hx : x = ']'
        · subst hx
          have hft : flagsTryAt ('[' :: t) = some t.dropLast := by
            simp [flagsTryAt, hlast]
          rw [hstep, hft]
          have hcond : (('[' :: t).getLast? = some ']') ∧ ('[' ∈ ('[' :: t).dropLast) := by
            refine ⟨by rw [cons_getLast?_ne _ _ htne, hlast], ?_⟩
            rw [cons_dropLast_ne _ _ htne]
            exact List.mem_cons_self _ _
          rw [if_pos hcond]
          have hdw : (('[' :: t).dropWhile (fun c => c != '[')) = '[' :: t := by
            rw [List.dropWhile_cons]
            simp
          rw [hdw]
          simp
        · have hft : flagsTryAt ('[' :: t) = none := by
            simp [flagsTryAt, hlast, hx]
          rw [hstep, hft, ih]
          have hcl : ¬ ((('[' :: t).getLast? = some ']') ∧ ('[' ∈ ('[' :: t).dropLast)) := by
            rintro ⟨h1, -⟩
            rw [cons_getLast?_ne _ _ htne, hlast] at h1
            exact hx (Option.some.inj h1)
          have hct : ¬ ((t.getLast? = some ']') ∧ ('[' ∈ t.dropLast)) := by
            rintro ⟨h1, -⟩
            rw [hlast] at h1
            exact hx (Option.some.inj h1)
          rw [if_neg hcl, if_neg hct]
    · have hft : flagsTryAt (c :: t) = none := by
        simp [flagsTryAt, hc]
      rw [hstep, hft, ih]
      cases t with
      | nil => simp
      | cons y ys =>
        have htne : (y :: ys) ≠ ([] : List Char) := by simp
        have hm : ('[' ∈ (c :: y :: ys).dropLast) ↔ ('[' ∈ (y :: ys).dropLast) := by
          rw [List.dropLast_cons₂]
          constructor
          · intro h
            rcases List.mem_cons.mp h with h | h
            · exact absurd h.symm hc
            · exact h
          · intro h
            exact List.mem_cons_of_mem _ h
        have hdw : ((c :: y :: ys).dropWhile (fun d => d != '['))
            = ((y :: ys).dropWhile (fun d => d != '[')) := by
          rw [List.dropWhile_cons]
          simp [hc]
        by_cases hcond : ((y :: ys).getLast? = some ']') ∧ ('[' ∈ (y :: ys).dropLast)
        · have hcond2 : ((c :: y :: ys).getLast? = some ']')
              ∧ ('[' ∈ (c :: y :: ys).dropLast) :=
            ⟨by rw [List.getLast?_cons_cons]; exact hcond.1, hm.mpr hcond.2⟩
          rw [if_pos hcond, if_pos hcond2, hdw]
        · have hcond2 : ¬ (((c :: y :: ys).getLast? = some ']')
              ∧ ('[' ∈ (c :: y :: ys).dropLast)) := by
            rintro ⟨h1, h2⟩
            rw [List.getLast?_cons_cons] at h1
            exact hcond ⟨h1, hm.mp h2⟩
          rw [if_neg hcond, if_neg hcond2]

/-! ## Claims about the scan-result parser -/

/-- C1 counterexample: on input whose header line is followed by one
non-blank line without a BSSID-shaped token, the parser returns zero
records, not one record per non-blank line after the header. -/
theorem scan_count_counterexample :
    list_wifi_networks "BSSID SSID\nzz".data = []
    ∧ ((candidateLines "BSSID SSID\nzz".data).filter
        (fun l => !(stripChars l).isEmpty)).length = 1 :=
  ⟨by decide, by decide⟩

/-- C1 amended: with a header line present, the parser returns exactly one
record per non-blank line after the header WHOSE BSSID PATTERN MATCHES, in
input order (the map over the filtered candidate lines). -/
theorem scan_records_per_matching_line (raw : List Char)
    (_hheader : (splitOnNl (stripChars raw)).any isHeader = true) :
    list_wifi_networks raw
      = (((candidateLines raw).filter
          (fun l => !(stripChars l).isEmpty && (bssidMatch l).isSome)).map
          (fun l => mkNetwork l ((bssidMatch l).getD []))) :=
  scanLoop_eq_filter_map _

theorem scan_records_per_matching_line_witness :
    ((splitOnNl (stripChars "x BSSID SSID x\naa:bb\n\nzz".data)).any isHeader = true)
    ∧ list_wifi_networks "x BSSID SSID x\naa:bb\n\nzz".data
      = (((candidateLines "x BSSID SSID x\naa:bb\n\nzz".data).filter
          (fun l => !(stripChars l).isEmpty && (bssidMatch l).isSome)).map
          (fun l => mkNetwork l ((bssidMatch l).getD []))) :=
  ⟨by decide, scan_records_per_matching_line _ (by decide)⟩

/-- C4: a candidate line yields a record exactly when the leading BSSID
pattern matches (first conjunct; blank lines also fail the BSSID pattern),
and each produced record's other fields are functions of their own matcher
alone, falling back to "Unknown" (empty text for SSID) on failure — the
`getD` defaults in each equation; the last conjunct states the RSSI
fallback: when the RSSI pattern fails the field is the sentinel. -/
theorem scan_record_iff_bssid (line : List Char) :
    (parseOneLine line).isSome = (bssidMatch line).isSome
    ∧ (parseOneLine line).map Network.frequency
      = (parseOneLine line).map (fun _ => ((freqMatch line).map stripChars).getD unknownText)
    ∧ (parseOneLine line).map Network.rssi
      = (parseOneLine line).map (fun _ => rssiField line)
    ∧ (parseOneLine line).map Network.ssid
      = (parseOneLine line).map (fun _ => ((ssidMatch line).map stripChars).getD [])
    ∧ (parseOneLine line).map Network.flags
      = (parseOneLine line).map (fun _ => ((flagsMatch line).map stripChars).getD unknownText)
    ∧ ((rssiMatch line).map (fun _ => rssiField line)).getD unknownText = rssiField line := by
  refine ⟨?_, ?_, ?_, ?_, ?_, ?_⟩
  · cases hp : parseOneLine line with
    | none =>
      unfold parseOneLine at hp
      by_cases hb : (stripChars line).isEmpty = true
      · rw [bssidMatch_of_blank line hb]
        rfl
      · rw [if_neg hb] at hp
        cases hm : bssidMatch line with
        | none => rfl
        | some b => rw [hm] at hp; cases hp
    | some n =>
      obtain ⟨b, hm, -, -⟩ := parseOneLine_inv line n hp
      rw [hm]
      rfl
  · cases hp : parseOneLine line with
    | none => rfl
    | some n =>
      obtain ⟨b, hm, rfl, -⟩ := parseOneLine_inv line n hp
      simp [mkNetwork]
  · cases hp : parseOneLine line with
    | none => rfl
    | some n =>
      obtain ⟨b, hm, rfl, -⟩ := parseOneLine_inv line n hp
      simp [mkNetwork]
  · cases hp : parseOneLine line with
    | none => rfl
    | some n =>
      obtain ⟨b, hm, rfl, -⟩ := parseOneLine_inv line n hp
      simp [mkNetwork]
  · cases hp : parseOneLine line with
    | none => rfl
    | some n =>
      obtain ⟨b, hm, rfl, -⟩ := parseOneLine_inv line n hp
      simp [mkNetwork]
  · cases hm : rssiMatch line with
    | none =>
      unfold rssiField
      rw [hm]
      rfl
    | some g0 => rfl

/-- C3 counterexample: on a line with two bracket groups the flags field is
the (stripped) text from the FIRST `[` to the final `]`, not the text
between the last `[` and the `]` at line end (which would be "c"). -/
theorem scan_flags_counterexample :
    (list_wifi_networks "aa [ b][c]".data).map Network.flags = ["b][c".data]
    ∧ "b][c".data ≠ "c".data :=
  ⟨by decide, by decide⟩

/-- C3 amended: for every line yielding a record, the security-flags field
equals the STRIPPED text between the FIRST `[` on the line and the `]` at
line end when the line ends with `]` and has an earlier `[`, and equals the
sentinel "Unknown" otherwise (in particular for lines with a BSSID but no
`[...]` flags). -/
theorem scan_flags_field (line : List Char) (n : Network)
    (h : parseOneLine line = some n) :
    n.flags = if (line.getLast? = some ']') ∧ ('[' ∈ line.dropLast)
      then stripChars (((line.dropWhile (fun c => c != '[')).drop 1).dropLast)
      else unknownText := by
  obtain ⟨b, hm, rfl, -⟩ := parseOneLine_inv line n h
  show ((flagsMatch line).map stripChars).getD unknownText = _
  rw [flagsMatch_eq]
  by_cases hcond : (line.getLast? = some ']') ∧ ('[' ∈ line.dropLast)
  · rw [if_pos hcond, if_pos hcond]
    rfl
  · rw [if_neg hcond, if_neg hcond]
    rfl

theorem scan_flags_field_witness :
    (Network.mk "bb".data unknownText unknownText [] "X".data).flags
      = if (("bb [X]".data.getLast? = some ']') ∧ ('[' ∈ "bb [X]".data.dropLast))
        then stripChars ((("bb [X]".data.dropWhile (fun c => c != '[')).drop 1).dropLast)
        else unknownText :=
  scan_flags_field "bb [X]".data (Network.mk "bb".data unknownText unknownText [] "X".data)
    (by decide)

/-- C10: if a line yields a record and the RSSI token pattern matched but
the line has no `)` at or after the token's position, the rssi field is the
sentinel "Unknown". -/
theorem scan_rssi_no_close_paren (line g0 : List Char) (n : Network)
    (h : parseOneLine line = some n) (hg : rssiMatch line = some g0)
    (hp : ')' ∉ line.drop ((findSub line g0).getD 0)) :
    n.rssi = unknownText := by
  obtain ⟨b, hm, rfl, -⟩ := parseOneLine_inv line n h
  show rssiField line = unknownText
  cases hfs : findSub line g0 with
  | none => simp [rssiField, hg, hfs]
  | some i =>
    rw [hfs] at hp
    simp only [Option.getD_some] at hp
    have hfc : findCharFrom line ')' i = none := by
      unfold findCharFrom
      have hidx : (line.drop i).findIdx? (fun c => c == ')') = none := by
        rw [List.findIdx?_eq_none_iff]
        intro x hx
        cases hxe : (x == ')') with
        | false => rfl
        | true =>
          exfalso
          have hxeq : x = ')' := beq_iff_eq.mp hxe
          exact hp (hxeq ▸ hx)
      rw [hidx]
    simp [rssiField, hg, hfs, hfc]

theorem scan_rssi_no_close_paren_witness :
    (Network.mk "aa".data unknownText unknownText [] unknownText).rssi = unknownText :=
  scan_rssi_no_close_paren "aa -50(".data "-50(".data
    (Network.mk "aa".data unknownText unknownText [] unknownText)
    (by decide) (by decide) (by decide)

/-- C9: both parsers are total Lean functions of the input text (totality is
by construction of the embedding: no partiality anywhere), and parsing
degrades field-by-field: every record a scan line produces is in the parse
output with each field equal to its own matcher's extraction or the
sentinel ("Unknown" / empty SSID, the `getD` defaults), and every present
connection's BSSID and IP fields likewise default individually. -/
theorem parsers_total_fields (raw rawc line : List Char) (n : Network) (c : Connection)
    (hline : line ∈ candidateLines raw) (hn : parseOneLine line = some n)
    (hc : get_current_wifi_connection rawc = some c) :
    n ∈ list_wifi_networks raw
    ∧ n.bssid = stripChars ((bssidMatch line).getD [])
    ∧ n.frequency = ((freqMatch line).map stripChars).getD unknownText
    ∧ n.rssi = rssiField line
    ∧ n.ssid = ((ssidMatch line).map stripChars).getD []
    ∧ n.flags = ((flagsMatch line).map stripChars).getD unknownText
    ∧ c.bssid = ((kvSearch (stripChars rawc) "BSSID: ".data).map stripChars).getD unknownText
    ∧ c.ip = ((kvSearch (stripChars rawc) "IP: ".data).map stripChars).getD unknownText := by
  obtain ⟨b, hm, rfl, -⟩ := parseOneLine_inv line n hn
  have hconn : c.bssid = ((kvSearch (stripChars rawc) "BSSID: ".data).map stripChars).getD
        unknownText
      ∧ c.ip = ((kvSearch (stripChars rawc) "IP: ".data).map stripChars).getD unknownText := by
    unfold get_current_wifi_connection at hc
    by_cases hph : (hasSubstr (stripChars rawc) "Wifi is disabled".data
        || hasSubstr (stripChars rawc) "Not connected".data) = true
    · rw [if_pos hph] at hc
      cases hc
    · rw [if_neg hph] at hc
      cases hkv : kvSearch (stripChars rawc) "SSID: ".data with
      | none => rw [hkv] at hc; cases hc
      | some v =>
        rw [hkv] at hc
        cases hc
        exact ⟨rfl, rfl⟩
  refine ⟨mem_scanLoop _ _ _ hline hn, ?_, ?_, ?_, ?_, ?_, hconn.1, hconn.2⟩
  · rw [hm]; rfl
  · rfl
  · rfl
  · rfl
  · rfl

theorem parsers_total_fields_witness :
    (Network.mk "aa:bb".data unknownText unknownText [] unknownText)
        ∈ list_wifi_networks "aa:bb x".data
    ∧ (Network.mk "aa:bb".data unknownText unknownText [] unknownText).bssid
      = stripChars ((bssidMatch "aa:bb x".data).getD [])
    ∧ (Network.mk "aa:bb".data unknownText unknownText [] unknownText).frequency
      = ((freqMatch "aa:bb x".data).map stripChars).getD unknownText
    ∧ (Network.mk "aa:bb".data unknownText unknownText [] unknownText).rssi
      = rssiField "aa:bb x".data
    ∧ (Network.mk "aa:bb".data unknownText unknownText [] unknownText).ssid
      = ((ssidMatch "aa:bb x".data).map stripChars).getD []
    ∧ (Network.mk "aa:bb".data unknownText unknownText [] unknownText).flags
      = ((flagsMatch "aa:bb x".data).map stripChars).getD unknownText
    ∧ (Connection.mk "net7".data unknownText unknownText).bssid
      = ((kvSearch (stripChars "SSID: net7".data) "BSSID: ".data).map stripChars).getD
          unknownText
    ∧ (Connection.mk "net7".data unknownText unknownText).ip
      = ((kvSearch (stripChars "SSID: net7".data) "IP: ".data).map stripChars).getD
          unknownText :=
  parsers_total_fields "aa:bb x".data "SSID: net7".data "aa:bb x".data
    (Network.mk "aa:bb".data unknownText unknownText [] unknownText)
    (Connection.mk "net7".data unknownText unknownText)
    (by decide) (by decide) (by decide)

/-! ## Claims about the logged command runner -/

theorem stream_output_file (pipe : List (List Char)) (file pfx : List Char)
    (console : List (List Char)) :
    (stream_output pipe file pfx console).1 = file ++ pipe.flatten := by
  induction pipe generalizing file console with
  | nil => simp [stream_output]
  | cons line rest ih =>
    rw [stream_output, ih]
    simp [List.append_assoc]

/-- C7: for a child exiting with code E, `log_command` returns E and writes
the decimal text of E to `returncode.txt`; at return both streams are fully
drained into their log files (their complete contents are present). -/
theorem run_and_log_exit_code (cmd : List Char) (child : ChildBehavior) (E : Int)
    (h : child.exitCode = E) :
    (log_command cmd child).2 = E
    ∧ (log_command cmd child).1.returncodeTxt = intToDec E
    ∧ (log_command cmd child).1.stdoutTxt = child.stdoutLines.flatten
    ∧ (log_command cmd child).1.stderrTxt = child.stderrLines.flatten := by
  subst h
  exact ⟨rfl, rfl, by simp [log_command, stream_output_file],
    by simp [log_command, stream_output_file]⟩

theorem run_and_log_exit_code_witness :
    intToDec 7 = "7".data
    ∧ ((log_command "false".data (ChildBehavior.mk [] [] 7)).2 = 7
      ∧ (log_command "false".data (ChildBehavior.mk [] [] 7)).1.returncodeTxt = intToDec 7
      ∧ (log_command "false".data (ChildBehavior.mk [] [] 7)).1.stdoutTxt
        = List.flatten (ChildBehavior.mk [] [] 7).stdoutLines
      ∧ (log_command "false".data (ChildBehavior.mk [] [] 7)).1.stderrTxt
        = List.flatten (ChildBehavior.mk [] [] 7).stderrLines) :=
  ⟨by decide, run_and_log_exit_code "false".data (ChildBehavior.mk [] [] 7) 7 rfl⟩

/-- C8: for a child that prints its stdout lines and exits 0, `log_command`
returns 0, `stdout.txt` is exactly the concatenation of those lines in
their original order (none lost, none reordered within the stream), and
`returncode.txt` contains "0". -/
theorem run_and_log_stdout_lines (cmd : List Char) (child : ChildBehavior)
    (h : child.exitCode = 0) :
    (log_command cmd child).2 = 0
    ∧ (log_command cmd child).1.stdoutTxt = child.stdoutLines.flatten
    ∧ (log_command cmd child).1.returncodeTxt = "0".data := by
  refine ⟨?_, by simp [log_command, stream_output_file], ?_⟩
  · show child.exitCode = 0
    exact h
  · show intToDec child.exitCode = "0".data
    rw [h]
    decide

theorem run_and_log_stdout_lines_witness :
    List.flatten ["hello\n".data, "world\n".data] = "hello\nworld\n".data
    ∧ ((log_command "echo".data (ChildBehavior.mk ["hello\n".data, "world\n".data] [] 0)).2 = 0
      ∧ (log_command "echo".data
          (ChildBehavior.mk ["hello\n".data, "world\n".data] [] 0)).1.stdoutTxt
        = List.flatten (ChildBehavior.mk ["hello\n".data, "world\n".data] [] 0).stdoutLines
      ∧ (log_command "echo".data
          (ChildBehavior.mk ["hello\n".data, "world\n".data] [] 0)).1.returncodeTxt
        = "0".data) :=
  ⟨by decide,
    run_and_log_stdout_lines "echo".data
      (ChildBehavior.mk ["hello\n".data, "world\n".data] [] 0) rfl⟩
